import Mathlib

/-!
# Kubri: the GitLab release source and the apk pipe block

A shallow embedding of `source/gitlab/gitlab.go`.  The GitLab server and the
HTTP transport are an explicit state `σ` that every client call reads and
updates; each call the source issues is appended to a trace, together with the
context it was bound to (`none` when the call was issued without one).
Go's `(value, error)` results are `Except` values, except where the code uses
the value next to a non-nil error (`getSize`), which is a pair.
-/

namespace Kubri

/-! ## Data model -/

/-- Byte strings (`[]byte`). -/
abbrev Bytes := List Nat

/-- Identity of a `context.Context` value handed in by a caller. -/
abbrev Ctx := Nat

/-- Go `error` values the embedded code can return. -/
inductive Err where
  /-- The sentinel `source.ErrAssetNotFound`. -/
  | assetNotFound
  /-- The backend's answer for a release that does not exist (404 Not Found). -/
  | notFound
  /-- The `strconv.ErrSyntax` number error. -/
  | invalidNumber
  /-- The `strconv.ErrRange` number error. -/
  | outOfRange
  /-- A request that could not be built (`http.NewRequest` failed). -/
  | badRequest (msg : String)
  /-- Any other failure reported by the client or the transport. -/
  | transport (msg : String)
  deriving DecidableEq, Repr

/-- Equality of results is decidable when it is for errors and values. -/
instance instDecidableEqExcept {ε α : Type} [DecidableEq ε] [DecidableEq α] :
    DecidableEq (Except ε α) := fun a b =>
  match a, b with
  | .ok x, .ok y => if h : x = y then isTrue (by rw [h]) else isFalse (fun e => h (by cases e; rfl))
  | .error x, .error y =>
    if h : x = y then isTrue (by rw [h]) else isFalse (fun e => h (by cases e; rfl))
  | .ok _, .error _ => isFalse (fun e => by cases e)
  | .error _, .ok _ => isFalse (fun e => by cases e)

/-- The type `source.Asset`. -/
structure Asset where
  Name : String
  URL : String
  Size : Int
  deriving DecidableEq, Repr

/-- The type `source.Release`; `Date` is a timestamp. -/
structure Release where
  Name : String
  Description : String
  Version : String
  Date : Nat
  Assets : List Asset
  deriving DecidableEq, Repr

/-- The type `gitlab.ReleaseLink`, with the fields the source reads. -/
structure ReleaseLink where
  Name : String
  URL : String
  deriving DecidableEq, Repr

/-- The type `gitlab.Release`, with the fields the source reads.  `Links` is
`Assets.Links`.  go-gitlab decodes `created_at` into a pointer which
`parseRelease` dereferences; the GitLab API always sends the field and the
embedding takes it as present. -/
structure GitlabRelease where
  Name : String
  Description : String
  TagName : String
  CreatedAt : Nat
  Links : List ReleaseLink
  deriving DecidableEq, Repr

/-- The type `gitlab.ProjectFile`: `URL` is the path of the uploaded file
relative to the project. -/
structure ProjectFile where
  URL : String
  deriving DecidableEq, Repr

/-- The parts of `url.URL` the source touches. -/
structure URL where
  Scheme : String
  Host : String
  Path : String
  deriving DecidableEq, Repr

/-- HTTP methods used by the source. -/
inductive Method where
  | GET
  | HEAD
  deriving DecidableEq, Repr

/-- A `retryablehttp.Request`: `ctx` is `none` until `WithContext` binds one. -/
structure Request where
  Method : Method
  URL : String
  ctx : Option Ctx
  deriving DecidableEq, Repr

/-- An HTTP response: its header fields in order and its body. -/
structure Response where
  Header : List (String × String)
  Body : Bytes
  deriving DecidableEq, Repr

/-- One call issued to the backend or the network, with the context it carried
(`none`: issued without the caller's context). -/
inductive Call where
  | listReleases (repo : String) (ctx : Option Ctx)
  | getRelease (repo version : String) (ctx : Option Ctx)
  | uploadFile (repo : String) (data : Bytes) (name : String) (ctx : Option Ctx)
  | createReleaseLink (repo version name url : String) (ctx : Option Ctx)
  | listReleaseLinks (repo version : String) (ctx : Option Ctx)
  | http (req : Request)
  deriving DecidableEq, Repr

/-- The context a call was issued with. -/
def Call.ctx : Call → Option Ctx
  | .listReleases _ c => c
  | .getRelease _ _ c => c
  | .uploadFile _ _ _ c => c
  | .createReleaseLink _ _ _ _ c => c
  | .listReleaseLinks _ _ c => c
  | .http req => req.ctx

/-- Library behaviour the source depends on and does not define: the width of
`int` (`strconv.IntSize`), the URLs `http.NewRequest` rejects, `path.Join` on
two elements and `(*url.URL).String`. -/
structure Deps where
  intSize : Nat
  urlErr : String → Option Err
  pathJoin : String → String → String
  urlString : URL → String

/-- The `gitlab.Client` together with the server behind it: every API method
maps the backend state and the call's arguments to a result and a new state. -/
structure Client (σ : Type) where
  BaseURL : URL
  ListReleases : σ → String → Option Ctx → Except Err (List GitlabRelease) × σ
  GetRelease : σ → String → String → Option Ctx → Except Err GitlabRelease × σ
  UploadFile : σ → String → Bytes → String → Option Ctx → Except Err ProjectFile × σ
  CreateReleaseLink : σ → String → String → String → String → Option Ctx → Except Err Unit × σ
  ListReleaseLinks : σ → String → String → Option Ctx → Except Err (List ReleaseLink) × σ
  Do : σ → Request → Except Err Response × σ

/-- The type `gitlabSource`. -/
structure gitlabSource (σ : Type) where
  client : Client σ
  repo : String
  deps : Deps

/-- The world a source operation runs in: the backend state, the calls issued
so far (oldest first) and the lines written with `log.Printf` (asset name and
error). -/
structure World (σ : Type) where
  state : σ
  calls : List Call
  logs : List (String × Err)

/-- Record a call and move the backend to its new state. -/
def World.issue {σ α : Type} (w : World σ) (c : Call) (r : α × σ) : α × World σ :=
  (r.1, { w with state := r.2, calls := w.calls ++ [c] })

/-! ## `strconv.Atoi` -/

/-- Is the byte an ASCII decimal digit. -/
def isDigit (c : Char) : Bool := decide (48 ≤ c.toNat) && decide (c.toNat ≤ 57)

/-- The digit loop of the fast path of `strconv.Atoi`: `none` on a byte that
is no digit. -/
def atoiDigits : List Char → Nat → Option Nat
  | [], n => some n
  | c :: cs, n => if isDigit c then atoiDigits cs (n * 10 + (c.toNat - 48)) else none

/-- The digit loop of `strconv.ParseUint` in base 10 over `uint64`: the value
and the error, `maxVal` with a range error as soon as the value overflows. -/
def parseUintLoop (maxVal : Nat) : List Char → Nat → Nat × Option Err
  | [], n => (n, none)
  | c :: cs, n =>
    if !isDigit c then (0, some Err.invalidNumber)
    else if n ≥ (2 ^ 64 - 1) / 10 + 1 then (maxVal, some Err.outOfRange)
    else
      let n10 := (n * 10) % 2 ^ 64
      let n1 := (n10 + (c.toNat - 48)) % 2 ^ 64
      if n1 < n10 ∨ n1 > maxVal then (maxVal, some Err.outOfRange)
      else parseUintLoop maxVal cs n1

/-- The function `strconv.ParseUint(s, 10, 0)` for an `int` of `bits` bits. -/
def ParseUint (bits : Nat) (s : List Char) : Nat × Option Err :=
  if s = [] then (0, some Err.invalidNumber)
  else parseUintLoop (2 ^ bits - 1) s 0

/-- The function `strconv.ParseInt(s, 10, 0)` for an `int` of `bits` bits. -/
def ParseInt (bits : Nat) (s : List Char) : Int × Option Err :=
  match s with
  | [] => (0, some Err.invalidNumber)
  | c :: cs =>
    let neg := decide (c = '-')
    let digits := if c = '+' ∨ c = '-' then cs else c :: cs
    let r := ParseUint bits digits
    if r.2 = some Err.invalidNumber then (0, some Err.invalidNumber)
    else
      let cutoff := 2 ^ (bits - 1)
      if !neg ∧ r.1 ≥ cutoff then (((cutoff - 1 : Nat) : Int), some Err.outOfRange)
      else if neg ∧ r.1 > cutoff then (-((cutoff : Nat) : Int), some Err.outOfRange)
      else (if neg then -((r.1 : Nat) : Int) else ((r.1 : Nat) : Int), none)

/-- The function `strconv.Atoi` for an `int` of `bits` bits (32 or 64): the
value and the error.  On a range error the value is the nearest `int`, not 0. -/
def Atoi (bits : Nat) (s : String) : Int × Option Err :=
  let sLen := s.utf8ByteSize
  if (bits = 32 ∧ 0 < sLen ∧ sLen < 10) ∨ (bits = 64 ∧ 0 < sLen ∧ sLen < 19) then
    match s.toList with
    | [] => (0, some Err.invalidNumber)
    | c :: cs =>
      let digits := if c = '-' ∨ c = '+' then cs else c :: cs
      if digits.length < 1 then (0, some Err.invalidNumber)
      else
        match atoiDigits digits 0 with
        | none => (0, some Err.invalidNumber)
        | some n => (if c = '-' then -(n : Int) else (n : Int), none)
  else ParseInt bits s.toList

/-! ## The GitLab source -/

/-- The method `http.Header.Get`: the first value stored under the key, or the
empty string. -/
def Header.Get (h : List (String × String)) (key : String) : String :=
  match h.find? (fun kv => kv.1 == key) with
  | some kv => kv.2
  | none => ""

/-- The function `retryablehttp.NewRequest(method, url, nil)`. -/
def NewRequest (d : Deps) (m : Method) (url : String) : Except Err Request :=
  match d.urlErr url with
  | some e => .error e
  | none => .ok { Method := m, URL := url, ctx := none }

/-- The method `(*http.Request).WithContext`. -/
def Request.WithContext (r : Request) (ctx : Ctx) : Request := { r with ctx := some ctx }

/-- The method `gitlabSource.getSize`: a HEAD request for the URL, then
`strconv.Atoi` on the `Content-Length` header. -/
def getSize {σ : Type} (s : gitlabSource σ) (ctx : Ctx) (url : String) (w : World σ) :
    (Int × Option Err) × World σ :=
  match NewRequest s.deps Method.HEAD url with
  | .error e => ((0, some e), w)
  | .ok req =>
    let r := w.issue (Call.http (req.WithContext ctx)) (s.client.Do w.state (req.WithContext ctx))
    match r.1 with
    | .error e => ((0, some e), r.2)
    | .ok resp => (Atoi s.deps.intSize (Header.Get resp.Header "Content-Length"), r.2)

/-- The loop of `parseRelease` over `release.Assets.Links`: probe the size, log
a probe error, append the asset with whatever size the probe returned. -/
def parseLinks {σ : Type} (s : gitlabSource σ) (ctx : Ctx) :
    List ReleaseLink → World σ → List Asset × World σ
  | [], w => ([], w)
  | l :: ls, w =>
    let r := getSize s ctx l.URL w
    let w1 : World σ :=
      match r.1.2 with
      | some e => { r.2 with logs := r.2.logs ++ [(l.Name, e)] }
      | none => r.2
    let rest := parseLinks s ctx ls w1
    ({ Name := l.Name, URL := l.URL, Size := r.1.1 } :: rest.1, rest.2)

/-- The method `gitlabSource.parseRelease`. -/
def parseRelease {σ : Type} (s : gitlabSource σ) (ctx : Ctx) (release : GitlabRelease)
    (w : World σ) : Release × World σ :=
  let a := parseLinks s ctx release.Links w
  ({ Name := release.Name, Description := release.Description, Version := release.TagName,
     Date := release.CreatedAt, Assets := a.1 }, a.2)

/-- The loop of `ListReleases` over the releases the backend reported. -/
def parseReleases {σ : Type} (s : gitlabSource σ) (ctx : Ctx) :
    List GitlabRelease → World σ → List Release × World σ
  | [], w => ([], w)
  | r :: rs, w =>
    let p := parseRelease s ctx r w
    let rest := parseReleases s ctx rs p.2
    (p.1 :: rest.1, rest.2)

/-- The method `gitlabSource.ListReleases`. -/
def ListReleases {σ : Type} (s : gitlabSource σ) (ctx : Ctx) (w : World σ) :
    Except Err (List Release) × World σ :=
  let r := w.issue (Call.listReleases s.repo (some ctx))
    (s.client.ListReleases w.state s.repo (some ctx))
  match r.1 with
  | .error e => (.error e, r.2)
  | .ok releases =>
    let p := parseReleases s ctx releases r.2
    (.ok p.1, p.2)

/-- The method `gitlabSource.GetRelease`. -/
def GetRelease {σ : Type} (s : gitlabSource σ) (ctx : Ctx) (version : String) (w : World σ) :
    Except Err Release × World σ :=
  let r := w.issue (Call.getRelease s.repo version (some ctx))
    (s.client.GetRelease w.state s.repo version (some ctx))
  match r.1 with
  | .error e => (.error e, r.2)
  | .ok rel =>
    let p := parseRelease s ctx rel r.2
    (.ok p.1, p.2)

/-- The URL `UploadAsset` registers for an uploaded file: the client's base
URL with its path replaced by `path.Join(s.repo, file.URL)`, as a string. -/
def uploadURL {σ : Type} (s : gitlabSource σ) (file : ProjectFile) : String :=
  s.deps.urlString { s.client.BaseURL with Path := s.deps.pathJoin s.repo file.URL }

/-- The method `gitlabSource.UploadAsset`. -/
def UploadAsset {σ : Type} (s : gitlabSource σ) (ctx : Ctx) (version name : String)
    (data : Bytes) (w : World σ) : Except Err Unit × World σ :=
  let r := w.issue (Call.uploadFile s.repo data name (some ctx))
    (s.client.UploadFile w.state s.repo data name (some ctx))
  match r.1 with
  | .error e => (.error e, r.2)
  | .ok file =>
    let url := uploadURL s file
    r.2.issue (Call.createReleaseLink s.repo version name url (some ctx))
      (s.client.CreateReleaseLink r.2.state s.repo version name url (some ctx))

/-- The loop of `DownloadAsset` over the release links: the first link whose
name matches is requested and ends the call. -/
def downloadLoop {σ : Type} (s : gitlabSource σ) (ctx : Ctx) (name : String) :
    List ReleaseLink → World σ → Except Err Bytes × World σ
  | [], w => (.error Err.assetNotFound, w)
  | link :: links, w =>
    if link.Name = name then
      match NewRequest s.deps Method.GET link.URL with
      | .error e => (.error e, w)
      | .ok req =>
        let r := w.issue (Call.http (req.WithContext ctx))
          (s.client.Do w.state (req.WithContext ctx))
        match r.1 with
        | .error e => (.error e, r.2)
        | .ok resp => (.ok resp.Body, r.2)
    else downloadLoop s ctx name links w

/-- The method `gitlabSource.DownloadAsset`.  The release links are listed
with no request option: that call carries no context. -/
def DownloadAsset {σ : Type} (s : gitlabSource σ) (ctx : Ctx) (version name : String)
    (w : World σ) : Except Err Bytes × World σ :=
  let r := w.issue (Call.listReleaseLinks s.repo version none)
    (s.client.ListReleaseLinks w.state s.repo version none)
  match r.1 with
  | .error e => (.error e, r.2)
  | .ok links => downloadLoop s ctx name links r.2

/-- The calls a run issued: those of the final world after the ones the
initial world already held. -/
def issuedSince {σ : Type} (w w1 : World σ) : List Call := w1.calls.drop w.calls.length

/-- The state of the in-memory backend. -/
structure MemState where
  releases : List GitlabRelease
  links : List (String × ReleaseLink)
  files : List (String × Bytes)
  uploads : Nat
  maxUpload : Nat
  probes : List (Except Err Response)
  deriving DecidableEq, Repr

/-- Library behaviour for the in-memory backend: a 64-bit `int`, URLs that
start with a colon are rejected (no protocol scheme), path elements are
concatenated (the second starts with a slash) and a URL prints as
`scheme://host/path`. -/
def memDeps : Deps where
  intSize := 64
  urlErr := fun u =>
    if u.toList.head? = some ':' then some (Err.badRequest "missing protocol scheme") else none
  pathJoin := fun a b => a ++ b
  urlString := fun u => u.Scheme ++ "://" ++ u.Host ++ "/" ++ u.Path

/-- The base URL of the in-memory client. -/
def memBase : URL := { Scheme := "https", Host := "gitlab.example", Path := "/api/v4/" }

/-- The links of a release in the in-memory backend, oldest first. -/
def memLinks (st : MemState) (version : String) : List ReleaseLink :=
  (st.links.filter (fun p => p.1 = version)).map Prod.snd

/-- The bytes served at a URL by the in-memory backend. -/
def memContent (st : MemState) (url : String) : Option Bytes :=
  (st.files.find? (fun p => p.1 = url)).map Prod.snd

/-- The in-memory client for repository paths: see `MemState`. -/
def memClient : Client MemState where
  BaseURL := memBase
  ListReleases := fun st _ _ => (.ok st.releases, st)
  GetRelease := fun st _ version _ =>
    match st.releases.find? (fun r => r.TagName = version) with
    | some r => (.ok r, st)
    | none => (.error Err.notFound, st)
  UploadFile := fun st repo data name _ =>
    if data.length > st.maxUpload then (.error (Err.transport "413 Request Entity Too Large"), st)
    else
      let file : ProjectFile := { URL := "/uploads/" ++ toString st.uploads ++ "/" ++ name }
      let url := memDeps.urlString { memBase with Path := memDeps.pathJoin repo file.URL }
      (.ok file, { st with files := (url, data) :: st.files, uploads := st.uploads + 1 })
  CreateReleaseLink := fun st _ version name url _ =>
    if st.releases.any (fun r => r.TagName = version) then
      if (memLinks st version).any (fun l => l.Name = name) then
        (.error (Err.transport "400 Bad Request"), st)
      else (.ok (), { st with links := st.links ++ [(version, { Name := name, URL := url })] })
    else (.error Err.notFound, st)
  ListReleaseLinks := fun st _ version _ => (.ok (memLinks st version), st)
  Do := fun st req =>
    match req.Method with
    | Method.GET =>
      match memContent st req.URL with
      | some b => (.ok { Header := [], Body := b }, st)
      | none => (.error (Err.transport "404 Not Found"), st)
    | Method.HEAD =>
      match st.probes with
      | [] => (.error (Err.transport "connection refused"), st)
      | r :: rest => (r, { st with probes := rest })

/-- The in-memory source for the repository `group/app`. -/
def memSource : gitlabSource MemState := { client := memClient, repo := "group/app", deps := memDeps }

/-- A HEAD response announcing the given `Content-Length`. -/
def headResponse (len : String) : Except Err Response :=
  .ok { Header := [("Content-Length", len)], Body := [] }

/-- A release `v1` with two assets. -/
def demoRelease : GitlabRelease :=
  { Name := "First", Description := "notes", TagName := "v1", CreatedAt := 1700000000,
    Links := [{ Name := "app.apk", URL := "https://cdn.example/app.apk" },
              { Name := "app.sig", URL := "https://cdn.example/app.sig" }] }

/-- A fresh world over a backend state. -/
def World.start {σ : Type} (st : σ) : World σ := { state := st, calls := [], logs := [] }

/-- A backend holding `demoRelease` with the given queue of probe answers. -/
def demoState (probes : List (Except Err Response)) : MemState :=
  { releases := [demoRelease], links := [], files := [], uploads := 0, maxUpload := 8,
    probes := probes }

/-! ## Pipe assembly for the apk block

The assembler (`pkg/pipe`) is exercised by `pkg/pipe/apk_test.go`; its own
code is modelled from the specification, section 4.4.  Source providers,
target providers and RSA keys are the type parameters `S`, `T` and `K`. -/

/-- Modelled from the spec: the errors of the provider registry (section 4.2),
an unregistered type name or the factory's own error. -/
inductive RegistryErr where
  | unknownProviderKind (name : String)
  | factory (msg : String)
  deriving DecidableEq, Repr

/-- Modelled from the spec: the error kinds of pipe assembly (section 7).
`invalidKey` is `crypto.ErrInvalidKey` in `apk_test.go`. -/
inductive PipeErr where
  | providerConstruction (cause : RegistryErr)
  | missingSecret (name : String)
  | invalidKey
  | missingRequiredField (field : String)
  deriving DecidableEq, Repr

/-- Modelled from the spec: the text of an assembly error; the test
`TestApk/missing key name` expects `missing key name`. -/
def PipeErr.message : PipeErr → String
  | .providerConstruction (.unknownProviderKind n) => "unknown provider kind " ++ n
  | .providerConstruction (.factory m) => m
  | .missingSecret n => "missing secret " ++ n
  | .invalidKey => "invalid key"
  | .missingRequiredField f => "missing " ++ f

/-- Modelled from the spec: a provider configuration record (section 6), its
registry key and its path. -/
structure ProviderConfig where
  kind : String
  path : String
  deriving DecidableEq, Repr

/-- Modelled from the spec: the `apk` block of a configuration as
`apk_test.go` writes it; an empty string is an unset field. -/
structure ApkBlock where
  disabled : Bool
  folder : String
  keyName : String
  version : String
  prerelease : Option Bool
  deriving DecidableEq, Repr

/-- Modelled from the spec: the parsed configuration tree (section 4.4), with
the global version selector and prerelease flag, the two provider records and
the optional `apk` block. -/
structure Config where
  version : String
  prerelease : Bool
  source : ProviderConfig
  target : ProviderConfig
  apk : Option ApkBlock
  deriving DecidableEq, Repr

/-- Modelled from the spec: the settings of the apk integration, the fields of
`apk.Config` that `apk_test.go` sets. -/
structure ApkConfig (S T K : Type) where
  Source : S
  Target : T
  Version : String
  Prerelease : Bool
  RSAKey : Option K
  KeyName : String
  deriving DecidableEq, Repr

/-- Modelled from the spec: the assembled pipe (section 3); `Apk` is absent
when the block is missing or disabled. -/
structure Pipe (S T K : Type) where
  Apk : Option (ApkConfig S T K)
  deriving DecidableEq, Repr

/-- Modelled from the spec: a provider registry (section 4.2), type names with
their factories; the first entry for a name is the one in force. -/
abbrev Registry (P : Type) := List (String × (ProviderConfig → Except String P))

/-- Modelled from the spec: `Registry.New` (section 4.2), which fails with
`unknownProviderKind` for an unregistered name and otherwise returns what the
factory returns. -/
def Registry.New {P : Type} (r : Registry P) (name : String) (cfg : ProviderConfig) :
    Except RegistryErr P :=
  match r.find? (fun e => e.1 = name) with
  | none => .error (RegistryErr.unknownProviderKind name)
  | some e =>
    match e.2 cfg with
    | .error m => .error (RegistryErr.factory m)
    | .ok p => .ok p

/-- Modelled from the spec: what the assembler is given besides the
configuration: the two registries, the sub-scoping of a target, the `Get` of
the secret store (section 4.1) and the parser of RSA private keys. -/
structure Assembler (S T K : Type) where
  sources : Registry S
  targets : Registry T
  sub : T → String → T
  secrets : String → Option Bytes
  parseKey : Bytes → Option K

/-- Modelled from the spec: the steps of decoding an integration block that
section 4.4 names: a secret lookup, the parsing of key bytes, the validation of
a required field. -/
inductive Step where
  | secretGet (name : String)
  | parseKey (bytes : Bytes)
  | validate (field : String)
  deriving DecidableEq, Repr

/-- Modelled from the spec: decoding of an enabled `apk` block, section 4.4
step 3 a to d, with the steps performed.  The folder defaults to `apk`; the
key is looked up under `rsa_key`, and, as `TestApk/defaults` assembles an
enabled block with nothing stored, an absent key leaves `RSAKey` unset; stored
bytes that do not parse fail with `invalidKey`; a parsed key without a key name
fails with `missingRequiredField`. -/
def decodeApk {S T K : Type} (a : Assembler S T K) (cfg : Config) (b : ApkBlock) (src : S)
    (tgt : T) : Except PipeErr (ApkConfig S T K) × List Step :=
  let folder := if b.folder = "" then "apk" else b.folder
  let version := if b.version = "" then cfg.version else b.version
  let prerelease := b.prerelease.getD cfg.prerelease
  match a.secrets "rsa_key" with
  | none =>
    (.ok { Source := src, Target := a.sub tgt folder, Version := version,
           Prerelease := prerelease, RSAKey := none, KeyName := b.keyName },
     [Step.secretGet "rsa_key"])
  | some bytes =>
    match a.parseKey bytes with
    | none => (.error PipeErr.invalidKey, [Step.secretGet "rsa_key", Step.parseKey bytes])
    | some key =>
      if b.keyName = "" then
        (.error (PipeErr.missingRequiredField "key name"),
         [Step.secretGet "rsa_key", Step.parseKey bytes, Step.validate "key name"])
      else
        (.ok { Source := src, Target := a.sub tgt folder, Version := version,
               Prerelease := prerelease, RSAKey := some key, KeyName := b.keyName },
         [Step.secretGet "rsa_key", Step.parseKey bytes, Step.validate "key name"])

/-- Modelled from the spec: pipe assembly, section 4.4: resolve the source
and the target through the registries, then decode the `apk` block unless it
is missing or marked disabled; the first error ends the assembly and no pipe
is returned with it. -/
def assemble {S T K : Type} (a : Assembler S T K) (cfg : Config) :
    Except PipeErr (Pipe S T K) × List Step :=
  match a.sources.New cfg.source.kind cfg.source with
  | .error e => (.error (PipeErr.providerConstruction e), [])
  | .ok src =>
    match a.targets.New cfg.target.kind cfg.target with
    | .error e => (.error (PipeErr.providerConstruction e), [])
    | .ok tgt =>
      match cfg.apk with
      | none => (.ok { Apk := none }, [])
      | some b =>
        if b.disabled then (.ok { Apk := none }, [])
        else
          let r := decodeApk a cfg b src tgt
          match r.1 with
          | .error e => (.error e, r.2)
          | .ok c => (.ok { Apk := some c }, r.2)

/-- The assembler of `apk_test.go`: file providers named by their path, a
target scoped by appending the folder, keys that parse when the bytes start
with 1 (the key is the remaining bytes). -/
def demoAssembler (secrets : String → Option Bytes) : Assembler String String Bytes where
  sources := [("file", fun c => .ok c.path)]
  targets := [("file", fun c => .ok c.path)]
  sub := fun t folder => t ++ "/" ++ folder
  secrets := secrets
  parseKey := fun b => match b with
    | 1 :: rest => some rest
    | _ => none

/-- The configuration of the tests of `apk_test.go`, around an `apk` block. -/
def demoConfig (b : ApkBlock) : Config :=
  { version := "", prerelease := false, source := { kind := "file", path := "/tmp/d" },
    target := { kind := "file", path := "/tmp/d" }, apk := some b }

/-- A secret store holding the given bytes under `rsa_key` and nothing else. -/
def storeWith (bytes : Bytes) : String → Option Bytes :=
  fun name => if name = "rsa_key" then some bytes else none

/-- An asset stands for a release link: same name, same URL. -/
def assetOf (l : ReleaseLink) (a : Asset) : Prop := a.Name = l.Name ∧ a.URL = l.URL

/-- A release stands for a backend release: same name, description, version
and date, and one asset for each link, in link order. -/
def releaseOf (g : GitlabRelease) (r : Release) : Prop :=
  r.Name = g.Name ∧ r.Description = g.Description ∧ r.Version = g.TagName ∧
    r.Date = g.CreatedAt ∧ List.Forall₂ assetOf g.Links r.Assets

/-- Every call a run issued between two worlds carries the caller's context. -/
def boundTo {σ : Type} (ctx : Ctx) (w w1 : World σ) : Prop :=
  ∀ c ∈ issuedSince w w1, Call.ctx c = some ctx

/-- The configuration of the tests of `apk_test.go` with other provider kinds. -/
def demoConfigWith (sourceKind targetKind : String) (b : ApkBlock) : Config :=
  { version := "", prerelease := false, source := { kind := sourceKind, path := "/tmp/d" },
    target := { kind := targetKind, path := "/tmp/d" }, apk := some b }

/-- A backend whose release `v1` already has a link named `app.apk`, served
with the bytes 9, 9. -/
def linkedState : MemState :=
  { releases := [demoRelease],
    links := [("v1", { Name := "app.apk", URL := "https://cdn.example/old.apk" })],
    files := [("https://cdn.example/old.apk", [9, 9])], uploads := 0, maxUpload := 8,
    probes := [] }

/-! ## Evaluation on concrete inputs -/

example : Atoi 64 "12345" = (12345, none) := by decide
example : Atoi 64 "+7" = (7, none) := by decide
example : Atoi 64 "" = (0, some Err.invalidNumber) := by decide
example : Atoi 64 "12x" = (0, some Err.invalidNumber) := by decide
example : Atoi 64 "9223372036854775807" = (9223372036854775807, none) := by decide
example : Atoi 64 "9223372036854775808" = (9223372036854775807, some Err.outOfRange) := by decide
example : Atoi 64 "-9223372036854775809" = (-9223372036854775808, some Err.outOfRange) := by decide
example : Atoi 32 "4294967296" = (2147483647, some Err.outOfRange) := by decide

example : assemble (demoAssembler (fun _ => none))
    (demoConfig { disabled := false, folder := "", keyName := "", version := "", prerelease := none })
    = (.ok { Apk := some { Source := "/tmp/d", Target := "/tmp/d/apk", Version := "",
                           Prerelease := false, RSAKey := none, KeyName := "" } },
       [Step.secretGet "rsa_key"]) := by decide

example : (ListReleases memSource 7 (World.start (demoState [headResponse "5", headResponse "x"]))).1
    = .ok [{ Name := "First", Description := "notes", Version := "v1", Date := 1700000000,
             Assets := [{ Name := "app.apk", URL := "https://cdn.example/app.apk", Size := 5 },
                        { Name := "app.sig", URL := "https://cdn.example/app.sig", Size := 0 }] }] := by
  decide

example : (UploadAsset memSource 7 "v1" "a.txt" [1, 2] (World.start (demoState []))).1 = .ok () := by
  decide

example : (DownloadAsset memSource 7 "v1" "a.txt"
    (UploadAsset memSource 7 "v1" "a.txt" [1, 2] (World.start (demoState []))).2).1 = .ok [1, 2] := by
  decide

/-! ## Basic facts about the trace -/

theorem issuedSince_append {σ : Type} (w w1 : World σ) (extra : List Call)
    (h : w1.calls = w.calls ++ extra) : issuedSince w w1 = extra := by
  simp [issuedSince, h]

theorem getSize_calls {σ : Type} (s : gitlabSource σ) (ctx : Ctx) (url : String) (w : World σ) :
    ∃ extra, (getSize s ctx url w).2.calls = w.calls ++ extra ∧
      ∀ c ∈ extra, Call.ctx c = some ctx := by
  unfold getSize
  cases hreq : NewRequest s.deps Method.HEAD url with
  | error e => exact ⟨[], by simp, by simp⟩
  | ok req =>
    refine ⟨[Call.http (req.WithContext ctx)], ?_, ?_⟩
    · simp only [World.issue]
      cases (s.client.Do w.state (req.WithContext ctx)).1 <;> rfl
    · intro c hc
      simp only [List.mem_singleton] at hc
      subst hc
      rfl

theorem parseLinks_calls {σ : Type} (s : gitlabSource σ) (ctx : Ctx) :
    ∀ (links : List ReleaseLink) (w : World σ),
      ∃ extra, (parseLinks s ctx links w).2.calls = w.calls ++ extra ∧
        ∀ c ∈ extra, Call.ctx c = some ctx
  | [], w => ⟨[], by simp [parseLinks], by simp⟩
  | l :: ls, w => by
    obtain ⟨e1, h1, b1⟩ := getSize_calls s ctx l.URL w
    simp only [parseLinks]
    generalize hw1 : (match (getSize s ctx l.URL w).1.2 with
      | some e => ({ (getSize s ctx l.URL w).2 with
          logs := (getSize s ctx l.URL w).2.logs ++ [(l.Name, e)] } : World σ)
      | none => (getSize s ctx l.URL w).2) = w1
    have hc : w1.calls = w.calls ++ e1 := by
      rw [← hw1, ← h1]
      cases (getSize s ctx l.URL w).1.2 <;> rfl
    obtain ⟨e2, h2, b2⟩ := parseLinks_calls s ctx ls w1
    refine ⟨e1 ++ e2, ?_, ?_⟩
    · rw [h2, hc, List.append_assoc]
    · intro c hc2
      rcases List.mem_append.mp hc2 with h | h
      · exact b1 c h
      · exact b2 c h

theorem parseReleases_calls {σ : Type} (s : gitlabSource σ) (ctx : Ctx) :
    ∀ (rels : List GitlabRelease) (w : World σ),
      ∃ extra, (parseReleases s ctx rels w).2.calls = w.calls ++ extra ∧
        ∀ c ∈ extra, Call.ctx c = some ctx
  | [], w => ⟨[], by simp [parseReleases], by simp⟩
  | r :: rs, w => by
    obtain ⟨e1, h1, b1⟩ := parseLinks_calls s ctx r.Links w
    obtain ⟨e2, h2, b2⟩ := parseReleases_calls s ctx rs (parseRelease s ctx r w).2
    refine ⟨e1 ++ e2, ?_, ?_⟩
    · simp only [parseReleases]
      rw [h2]
      simp only [parseRelease]
      rw [h1, List.append_assoc]
    · intro c hc2
      rcases List.mem_append.mp hc2 with h | h
      · exact b1 c h
      · exact b2 c h

/-! ## Listing and fetching releases -/

theorem parseLinks_assets {σ : Type} (s : gitlabSource σ) (ctx : Ctx) :
    ∀ (links : List ReleaseLink) (w : World σ),
      List.Forall₂ assetOf links (parseLinks s ctx links w).1
  | [], _ => List.Forall₂.nil
  | l :: ls, w => by
    simp only [parseLinks]
    exact List.Forall₂.cons ⟨rfl, rfl⟩ (parseLinks_assets s ctx ls _)

theorem parseRelease_releaseOf {σ : Type} (s : gitlabSource σ) (ctx : Ctx) (g : GitlabRelease)
    (w : World σ) : releaseOf g (parseRelease s ctx g w).1 :=
  ⟨rfl, rfl, rfl, rfl, parseLinks_assets s ctx g.Links w⟩

theorem parseReleases_releaseOf {σ : Type} (s : gitlabSource σ) (ctx : Ctx) :
    ∀ (rels : List GitlabRelease) (w : World σ),
      List.Forall₂ releaseOf rels (parseReleases s ctx rels w).1
  | [], _ => List.Forall₂.nil
  | g :: gs, w => by
    simp only [parseReleases]
    exact List.Forall₂.cons (parseRelease_releaseOf s ctx g w) (parseReleases_releaseOf s ctx gs _)

/-- C1: when the backend reports a list of releases to `ListReleases`, the
call succeeds with one release for each backend release, in the same order,
and each has one asset for each release link, in link order, with the link's
name and URL, for every backend and so whatever the size probes return. -/
theorem ListReleases_one_release_per_backend_release {σ : Type} (s : gitlabSource σ) (ctx : Ctx)
    (w : World σ) (releases : List GitlabRelease)
    (h : (s.client.ListReleases w.state s.repo (some ctx)).1 = .ok releases) :
    ∃ rs, (ListReleases s ctx w).1 = .ok rs ∧ rs.length = releases.length ∧
      List.Forall₂ releaseOf releases rs := by
  refine ⟨(parseReleases s ctx releases (w.issue (Call.listReleases s.repo (some ctx))
    (s.client.ListReleases w.state s.repo (some ctx))).2).1, ?_, ?_, ?_⟩
  · simp only [ListReleases, World.issue, h]
  · exact (List.Forall₂.length_eq (parseReleases_releaseOf s ctx releases _)).symm
  · exact parseReleases_releaseOf s ctx releases _

theorem ListReleases_one_release_per_backend_release_witness :
    ∃ rs, (ListReleases memSource 7
        (World.start (demoState [headResponse "5", .error (Err.transport "timeout")]))).1 = .ok rs ∧
      rs.length = [demoRelease].length ∧ List.Forall₂ releaseOf [demoRelease] rs :=
  ListReleases_one_release_per_backend_release memSource 7
    (World.start (demoState [headResponse "5", .error (Err.transport "timeout")])) [demoRelease]
    (by decide)

theorem ListReleases_boundTo {σ : Type} (s : gitlabSource σ) (ctx : Ctx) (w : World σ) :
    boundTo ctx w (ListReleases s ctx w).2 := by
  unfold boundTo
  cases h : (s.client.ListReleases w.state s.repo (some ctx)).1 with
  | error e =>
    rw [issuedSince_append w _ [Call.listReleases s.repo (some ctx)]
      (by simp only [ListReleases, World.issue, h])]
    intro c hc
    simp only [List.mem_singleton] at hc
    subst hc
    rfl
  | ok rels =>
    obtain ⟨extra, h1, b1⟩ := parseReleases_calls s ctx rels
      (w.issue (Call.listReleases s.repo (some ctx)) (s.client.ListReleases w.state s.repo (some ctx))).2
    rw [issuedSince_append w _ (Call.listReleases s.repo (some ctx) :: extra)
      (by simp only [ListReleases, World.issue, h] at h1 ⊢; rw [h1]; simp)]
    intro c hc
    rcases List.mem_cons.mp hc with hc | hc
    · subst hc; rfl
    · exact b1 c hc

theorem GetRelease_boundTo {σ : Type} (s : gitlabSource σ) (ctx : Ctx) (version : String)
    (w : World σ) : boundTo ctx w (GetRelease s ctx version w).2 := by
  unfold boundTo
  cases h : (s.client.GetRelease w.state s.repo version (some ctx)).1 with
  | error e =>
    rw [issuedSince_append w _ [Call.getRelease s.repo version (some ctx)]
      (by simp only [GetRelease, World.issue, h])]
    intro c hc
    simp only [List.mem_singleton] at hc
    subst hc
    rfl
  | ok rel =>
    obtain ⟨extra, h1, b1⟩ := parseLinks_calls s ctx rel.Links
      (w.issue (Call.getRelease s.repo version (some ctx))
        (s.client.GetRelease w.state s.repo version (some ctx))).2
    rw [issuedSince_append w _ (Call.getRelease s.repo version (some ctx) :: extra)
      (by simp only [GetRelease, parseRelease, World.issue, h] at h1 ⊢; rw [h1]; simp)]
    intro c hc
    rcases List.mem_cons.mp hc with hc | hc
    · subst hc; rfl
    · exact b1 c hc

theorem UploadAsset_calls {σ : Type} (s : gitlabSource σ) (ctx : Ctx) (version name : String)
    (data : Bytes) (w : World σ) :
    (UploadAsset s ctx version name data w).2.calls = w.calls ++
      (Call.uploadFile s.repo data name (some ctx) ::
        match (s.client.UploadFile w.state s.repo data name (some ctx)).1 with
        | .error _ => []
        | .ok file => [Call.createReleaseLink s.repo version name (uploadURL s file) (some ctx)]) := by
  cases h : (s.client.UploadFile w.state s.repo data name (some ctx)).1 with
  | error e => simp only [UploadAsset, World.issue, h]
  | ok file => simp [UploadAsset, World.issue, h]

theorem UploadAsset_boundTo {σ : Type} (s : gitlabSource σ) (ctx : Ctx) (version name : String)
    (data : Bytes) (w : World σ) : boundTo ctx w (UploadAsset s ctx version name data w).2 := by
  unfold boundTo
  rw [issuedSince_append w _ _ (UploadAsset_calls s ctx version name data w)]
  intro c hc
  rcases List.mem_cons.mp hc with hc | hc
  · subst hc; rfl
  · cases h : (s.client.UploadFile w.state s.repo data name (some ctx)).1 with
    | error e => simp [h] at hc
    | ok file =>
      simp only [h, List.mem_singleton] at hc
      subst hc
      rfl

theorem downloadLoop_calls {σ : Type} (s : gitlabSource σ) (ctx : Ctx) (name : String) :
    ∀ (links : List ReleaseLink) (w : World σ),
      ∃ extra, (downloadLoop s ctx name links w).2.calls = w.calls ++ extra
  | [], w => ⟨[], by simp [downloadLoop]⟩
  | l :: ls, w => by
    simp only [downloadLoop]
    split
    · cases hreq : NewRequest s.deps Method.GET l.URL with
      | error e => exact ⟨[], by simp⟩
      | ok req =>
        refine ⟨[Call.http (req.WithContext ctx)], ?_⟩
        simp only [World.issue]
        cases (s.client.Do w.state (req.WithContext ctx)).1 <;> rfl
    · exact downloadLoop_calls s ctx name ls w

/-- C7, on the code: the first call `DownloadAsset` issues is the listing of
the release links, and it is issued without the caller's context; so not every
call of `DownloadAsset` is bound to that context, while every call of
`ListReleases`, `GetRelease` and `UploadAsset` is. -/
theorem DownloadAsset_lists_links_without_context {σ : Type} (s : gitlabSource σ) (ctx : Ctx)
    (version name : String) (data : Bytes) (w : World σ) :
    (issuedSince w (DownloadAsset s ctx version name w).2).head?
        = some (Call.listReleaseLinks s.repo version none) ∧
      ¬ boundTo ctx w (DownloadAsset s ctx version name w).2 ∧
      boundTo ctx w (ListReleases s ctx w).2 ∧
      boundTo ctx w (GetRelease s ctx version w).2 ∧
      boundTo ctx w (UploadAsset s ctx version name data w).2 := by
  have hcalls : ∃ extra, (DownloadAsset s ctx version name w).2.calls
      = w.calls ++ (Call.listReleaseLinks s.repo version none :: extra) := by
    cases h : (s.client.ListReleaseLinks w.state s.repo version none).1 with
    | error e => exact ⟨[], by simp only [DownloadAsset, World.issue, h]⟩
    | ok links =>
      obtain ⟨extra, h1⟩ := downloadLoop_calls s ctx name links
        (w.issue (Call.listReleaseLinks s.repo version none)
          (s.client.ListReleaseLinks w.state s.repo version none)).2
      refine ⟨extra, ?_⟩
      simp only [DownloadAsset, World.issue, h] at h1 ⊢
      rw [h1]
      simp
  obtain ⟨extra, hx⟩ := hcalls
  have hi := issuedSince_append w _ _ hx
  refine ⟨by rw [hi]; rfl, ?_, ListReleases_boundTo s ctx w, GetRelease_boundTo s ctx version w,
    UploadAsset_boundTo s ctx version name data w⟩
  intro hb
  have := hb (Call.listReleaseLinks s.repo version none) (by rw [hi]; simp)
  simp [Call.ctx] at this

/-! ## Downloading an asset -/

/-- What `DownloadAsset` does for a link it has picked, from the world `w`:
build a GET request for the link's URL, send it with the caller's context and
return the body or the error. -/
theorem downloadLoop_find {σ : Type} (s : gitlabSource σ) (ctx : Ctx) (name : String) :
    ∀ (links : List ReleaseLink) (w : World σ),
      downloadLoop s ctx name links w =
        match links.find? (fun l => decide (l.Name = name)) with
        | none => (.error Err.assetNotFound, w)
        | some l => downloadLoop s ctx name [l] w
  | [], w => by simp [downloadLoop]
  | l :: ls, w => by
    by_cases h : l.Name = name
    · simp [downloadLoop, List.find?, h]
    · have ih := downloadLoop_find s ctx name ls w
      simp only [downloadLoop, List.find?, h, if_false, decide_False]
      exact ih

/-- C4: when the listing of the release links succeeds, `DownloadAsset`
fails with `source.ErrAssetNotFound` and issues no request beyond the listing
if no link has exactly the name; otherwise it takes the first link with that
name, and either the GET request for its URL cannot be built, which is the
error returned with nothing requested, or that one request is sent with the
caller's context and its body or its error is returned. -/
theorem DownloadAsset_by_exact_name {σ : Type} (s : gitlabSource σ) (ctx : Ctx)
    (version name : String) (w : World σ) (links : List ReleaseLink)
    (h : (s.client.ListReleaseLinks w.state s.repo version none).1 = .ok links) :
    ((∀ l ∈ links, l.Name ≠ name) →
      (DownloadAsset s ctx version name w).1 = .error Err.assetNotFound ∧
      issuedSince w (DownloadAsset s ctx version name w).2
        = [Call.listReleaseLinks s.repo version none]) ∧
    (∀ l, links.find? (fun l => decide (l.Name = name)) = some l →
      (∀ e, s.deps.urlErr l.URL = some e →
        (DownloadAsset s ctx version name w).1 = .error e ∧
        issuedSince w (DownloadAsset s ctx version name w).2
          = [Call.listReleaseLinks s.repo version none]) ∧
      (s.deps.urlErr l.URL = none →
        issuedSince w (DownloadAsset s ctx version name w).2
          = [Call.listReleaseLinks s.repo version none,
             Call.http { Method := Method.GET, URL := l.URL, ctx := some ctx }] ∧
        (DownloadAsset s ctx version name w).1 =
          match (s.client.Do (s.client.ListReleaseLinks w.state s.repo version none).2
              { Method := Method.GET, URL := l.URL, ctx := some ctx }).1 with
          | .error e => .error e
          | .ok resp => .ok resp.Body)) := by
  have hD : DownloadAsset s ctx version name w = downloadLoop s ctx name links
      (w.issue (Call.listReleaseLinks s.repo version none)
        (s.client.ListReleaseLinks w.state s.repo version none)).2 := by
    simp only [DownloadAsset, World.issue, h]
  rw [hD, downloadLoop_find]
  refine ⟨?_, ?_⟩
  · intro hno
    have hf : links.find? (fun l => decide (l.Name = name)) = none := by
      rw [List.find?_eq_none]
      intro l hl
      simpa using hno l hl
    rw [hf]
    exact ⟨rfl, issuedSince_append w _ _ rfl⟩
  · intro l hl
    have hname : l.Name = name := by simpa using List.find?_some hl
    rw [hl]
    refine ⟨?_, ?_⟩
    · intro e he
      have hl1 : ∀ W : World σ, downloadLoop s ctx name [l] W = (.error e, W) := by
        intro W
        simp [downloadLoop, hname, NewRequest, he]
      constructor
      · simp [hl1]
      · simp only [hl1]
        exact issuedSince_append w _ _ rfl
    · intro hv
      have hl2 : ∀ W : World σ, downloadLoop s ctx name [l] W =
          match (W.issue (Call.http { Method := Method.GET, URL := l.URL, ctx := some ctx })
              (s.client.Do W.state { Method := Method.GET, URL := l.URL, ctx := some ctx })).1 with
          | .error e => (.error e, (W.issue
              (Call.http { Method := Method.GET, URL := l.URL, ctx := some ctx })
              (s.client.Do W.state { Method := Method.GET, URL := l.URL, ctx := some ctx })).2)
          | .ok resp => (.ok resp.Body, (W.issue
              (Call.http { Method := Method.GET, URL := l.URL, ctx := some ctx })
              (s.client.Do W.state { Method := Method.GET, URL := l.URL, ctx := some ctx })).2) := by
        intro W
        simp [downloadLoop, hname, NewRequest, hv, Request.WithContext]
      simp only [hl2, World.issue]
      constructor
      · apply issuedSince_append
        cases (s.client.Do (s.client.ListReleaseLinks w.state s.repo version none).2
          { Method := Method.GET, URL := l.URL, ctx := some ctx }).1 <;> simp
      · cases (s.client.Do (s.client.ListReleaseLinks w.state s.repo version none).2
          { Method := Method.GET, URL := l.URL, ctx := some ctx }).1 <;> rfl

theorem DownloadAsset_by_exact_name_witness :
    ((DownloadAsset memSource 7 "v1" "app.sig" (World.start linkedState)).1
        = .error Err.assetNotFound ∧
      issuedSince (World.start linkedState)
        (DownloadAsset memSource 7 "v1" "app.sig" (World.start linkedState)).2
        = [Call.listReleaseLinks memSource.repo "v1" none]) ∧
    (DownloadAsset memSource 7 "v1" "app.apk" (World.start linkedState)).1 = .ok [9, 9] :=
  ⟨(DownloadAsset_by_exact_name memSource 7 "v1" "app.sig" (World.start linkedState)
      [{ Name := "app.apk", URL := "https://cdn.example/old.apk" }] (by decide)).1 (by decide),
   (((DownloadAsset_by_exact_name memSource 7 "v1" "app.apk" (World.start linkedState)
      [{ Name := "app.apk", URL := "https://cdn.example/old.apk" }] (by decide)).2
      { Name := "app.apk", URL := "https://cdn.example/old.apk" } (by decide)).2 (by decide)).2⟩

/-! ## Uploading an asset -/

/-- C10: `UploadAsset` uploads the file first.  If the upload fails, its
error is returned and the upload is the only call issued, so no release link
is created.  If it succeeds, exactly one further call is issued, the creation
of a link on the given version with the given name and with the URL made of
the client's base URL with its path replaced by `path.Join(repo, file.URL)`;
the result of `UploadAsset` is the result of that call, and nothing follows
it.  The result is success exactly when both calls succeed. -/
theorem UploadAsset_upload_then_link {σ : Type} (s : gitlabSource σ) (ctx : Ctx)
    (version name : String) (data : Bytes) (w : World σ) :
    (∀ e, (s.client.UploadFile w.state s.repo data name (some ctx)).1 = .error e →
      (UploadAsset s ctx version name data w).1 = .error e ∧
      issuedSince w (UploadAsset s ctx version name data w).2
        = [Call.uploadFile s.repo data name (some ctx)]) ∧
    (∀ file, (s.client.UploadFile w.state s.repo data name (some ctx)).1 = .ok file →
      issuedSince w (UploadAsset s ctx version name data w).2
        = [Call.uploadFile s.repo data name (some ctx),
           Call.createReleaseLink s.repo version name
             (s.deps.urlString { s.client.BaseURL with Path := s.deps.pathJoin s.repo file.URL })
             (some ctx)] ∧
      (UploadAsset s ctx version name data w).1 =
        (s.client.CreateReleaseLink (s.client.UploadFile w.state s.repo data name (some ctx)).2
          s.repo version name
          (s.deps.urlString { s.client.BaseURL with Path := s.deps.pathJoin s.repo file.URL })
          (some ctx)).1) ∧
    ((UploadAsset s ctx version name data w).1 = .ok () ↔
      ∃ file, (s.client.UploadFile w.state s.repo data name (some ctx)).1 = .ok file ∧
        (s.client.CreateReleaseLink (s.client.UploadFile w.state s.repo data name (some ctx)).2
          s.repo version name
          (s.deps.urlString { s.client.BaseURL with Path := s.deps.pathJoin s.repo file.URL })
          (some ctx)).1 = .ok ()) := by
  have hc := UploadAsset_calls s ctx version name data w
  cases h : (s.client.UploadFile w.state s.repo data name (some ctx)).1 with
  | error e =>
    rw [h] at hc
    refine ⟨?_, ?_, ?_⟩
    · intro e1 he1
      cases he1
      exact ⟨by simp only [UploadAsset, World.issue, h], issuedSince_append w _ _ hc⟩
    · intro file hf
      cases hf
    · constructor
      · intro hok
        simp only [UploadAsset, World.issue, h] at hok
        cases hok
      · rintro ⟨file, hf, _⟩
        cases hf
  | ok file =>
    rw [h] at hc
    have hres : (UploadAsset s ctx version name data w).1 =
        (s.client.CreateReleaseLink (s.client.UploadFile w.state s.repo data name (some ctx)).2
          s.repo version name (uploadURL s file) (some ctx)).1 := by
      simp only [UploadAsset, World.issue, h]
    refine ⟨?_, ?_, ?_⟩
    · intro e1 he1
      cases he1
    · intro file1 hf
      cases hf
      exact ⟨issuedSince_append w _ _ hc, hres⟩
    · constructor
      · intro hok
        exact ⟨file, rfl, hres.symm.trans hok⟩
      · rintro ⟨file1, hf, hcr⟩
        cases hf
        exact hres.trans hcr

theorem UploadAsset_upload_then_link_witness :
    ((UploadAsset memSource 7 "v1" "big.bin" [1, 2, 3, 4, 5, 6, 7, 8, 9] (World.start linkedState)).1
        = .error (Err.transport "413 Request Entity Too Large") ∧
      issuedSince (World.start linkedState)
        (UploadAsset memSource 7 "v1" "big.bin" [1, 2, 3, 4, 5, 6, 7, 8, 9]
          (World.start linkedState)).2
        = [Call.uploadFile memSource.repo [1, 2, 3, 4, 5, 6, 7, 8, 9] "big.bin" (some 7)]) ∧
    issuedSince (World.start linkedState)
        (UploadAsset memSource 7 "v0" "a.txt" [1, 2] (World.start linkedState)).2
      = [Call.uploadFile memSource.repo [1, 2] "a.txt" (some 7),
         Call.createReleaseLink memSource.repo "v0" "a.txt"
           "https://gitlab.example/group/app/uploads/0/a.txt" (some 7)] ∧
    (UploadAsset memSource 7 "v0" "a.txt" [1, 2] (World.start linkedState)).1
      = .error Err.notFound :=
  ⟨(UploadAsset_upload_then_link memSource 7 "v1" "big.bin" [1, 2, 3, 4, 5, 6, 7, 8, 9]
      (World.start linkedState)).1 _ (by decide),
   ((UploadAsset_upload_then_link memSource 7 "v0" "a.txt" [1, 2]
      (World.start linkedState)).2.1 { URL := "/uploads/0/a.txt" } (by decide)).1,
   ((UploadAsset_upload_then_link memSource 7 "v0" "a.txt" [1, 2]
      (World.start linkedState)).2.1 { URL := "/uploads/0/a.txt" } (by decide)).2.trans (by decide)⟩

/-! ## Size probes -/

theorem ParseInt_error_value (bits : Nat) (s : List Char) (e : Err)
    (h : (ParseInt bits s).2 = some e) : (ParseInt bits s).1 = 0 ∨ e = Err.outOfRange := by
  cases s with
  | nil => left; rfl
  | cons c cs =>
    simp only [ParseInt] at h ⊢
    generalize ParseUint bits (if c = '+' ∨ c = '-' then cs else c :: cs) = r at h ⊢
    split_ifs at h ⊢ <;> simp_all

theorem Atoi_error_value (bits : Nat) (s : String) (e : Err) (h : (Atoi bits s).2 = some e) :
    (Atoi bits s).1 = 0 ∨ e = Err.outOfRange := by
  unfold Atoi at h ⊢
  simp only at h ⊢
  split_ifs at h ⊢ with hfast
  · cases hs : s.toList with
    | nil => left; rfl
    | cons c cs =>
      simp only [hs] at h ⊢
      generalize (if c = '-' ∨ c = '+' then cs else c :: cs) = digits at h ⊢
      cases hd : atoiDigits digits 0 with
      | none =>
        simp only [hd] at h ⊢
        split_ifs at h ⊢ <;> simp_all
      | some n =>
        simp only [hd] at h ⊢
        split_ifs at h ⊢
        simp_all
  · exact ParseInt_error_value bits s.toList e h

/-- A failed size probe yields size 0, unless the failure is the range error of
`strconv.Atoi`, which comes with the nearest `int` instead. -/
theorem getSize_error_value {σ : Type} (s : gitlabSource σ) (ctx : Ctx) (url : String)
    (w : World σ) (e : Err) (h : (getSize s ctx url w).1.2 = some e) :
    (getSize s ctx url w).1.1 = 0 ∨ e = Err.outOfRange := by
  unfold getSize at h ⊢
  cases hreq : NewRequest s.deps Method.HEAD url with
  | error e1 => left; rfl
  | ok req =>
    simp only [hreq, World.issue] at h ⊢
    cases hdo : (s.client.Do w.state (req.WithContext ctx)).1 with
    | error e1 => left; simp only [hdo]
    | ok resp =>
      simp only [hdo] at h ⊢
      exact Atoi_error_value _ _ e h

/-- C2, on the code: a `Content-Length` beyond the range of `int` makes the
probe fail with a range error, the failure is logged, and the asset's `Size` is
the largest `int`, not 0; the other asset keeps the size its own probe
returned and the call succeeds. -/
theorem ListReleases_size_on_range_error :
    (ListReleases memSource 7
        (World.start (demoState [headResponse "9223372036854775808", headResponse "5"]))).1
      = .ok [{ Name := "First", Description := "notes", Version := "v1", Date := 1700000000,
               Assets := [{ Name := "app.apk", URL := "https://cdn.example/app.apk",
                            Size := 9223372036854775807 },
                          { Name := "app.sig", URL := "https://cdn.example/app.sig",
                            Size := 5 }] }] ∧
    (ListReleases memSource 7
        (World.start (demoState [headResponse "9223372036854775808", headResponse "5"]))).2.logs
      = [("app.apk", Err.outOfRange)] ∧
    (getSize { memSource with deps := { memDeps with intSize := 32 } } 7
        "https://cdn.example/app.apk" (World.start (demoState [headResponse "4294967296"]))).1
      = (2147483647, some Err.outOfRange) := by
  decide

/-! ## A fetched release against the listed one -/

/-- C8, as amended: when the source and the target providers resolve, a
configuration whose `apk` block is marked disabled assembles to the empty
pipe, `Apk` absent, whatever else the block sets and whatever the secret
store holds, and no secret lookup, key parsing or validation step is
performed. -/
theorem assemble_disabled_apk {S T K : Type} (a : Assembler S T K) (cfg : Config) (b : ApkBlock)
    (src : S) (tgt : T)
    (hs : a.sources.New cfg.source.kind cfg.source = .ok src)
    (ht : a.targets.New cfg.target.kind cfg.target = .ok tgt)
    (hb : cfg.apk = some b) (hd : b.disabled = true) :
    assemble a cfg = (.ok { Apk := none }, []) := by
  simp only [assemble, hs, ht, hb, hd, if_true]

theorem assemble_disabled_apk_witness :
    assemble (demoAssembler (storeWith [0, 0]))
      (demoConfig { disabled := true, folder := "bogus", keyName := "", version := "",
                    prerelease := none })
      = (.ok { Apk := none }, []) :=
  assemble_disabled_apk (demoAssembler (storeWith [0, 0]))
    (demoConfig { disabled := true, folder := "bogus", keyName := "", version := "",
                  prerelease := none })
    { disabled := true, folder := "bogus", keyName := "", version := "", prerelease := none }
    "/tmp/d" "/tmp/d" (by decide) (by decide) rfl rfl

/-- C8, as stated, fails: the `apk` block is disabled and the source kind
`s3` is not registered; the assembly fails with the provider error and
returns no pipe, having performed no step of the block. -/
theorem assemble_disabled_apk_unknown_source :
    assemble (demoAssembler (storeWith [0, 0]))
      (demoConfigWith "s3" "file" { disabled := true, folder := "bogus", keyName := "",
                                    version := "", prerelease := none })
      = (.error (PipeErr.providerConstruction (RegistryErr.unknownProviderKind "s3")), []) ∧
    ¬ (assemble (demoAssembler (storeWith [0, 0]))
      (demoConfigWith "s3" "file" { disabled := true, folder := "bogus", keyName := "",
                                    version := "", prerelease := none })).1
      = .ok { Apk := none } := by
  decide

/-- C9, as amended: when the source and the target providers resolve and the
enabled `apk` block finds bytes stored under `rsa_key`: bytes that do not
parse as a key fail the
assembly with `invalidKey`, whether or not a key name is set; a parsed key
with no key name fails it with the missing-field error `missing key name`; in
both cases the result is an error and no pipe; a parsed key with a key name
assembles a pipe whose `RSAKey` is the parsed key and whose `KeyName` is the
configured name. -/
theorem assemble_enabled_apk_with_key {S T K : Type} (a : Assembler S T K) (cfg : Config)
    (b : ApkBlock) (src : S) (tgt : T) (bytes : Bytes)
    (hs : a.sources.New cfg.source.kind cfg.source = .ok src)
    (ht : a.targets.New cfg.target.kind cfg.target = .ok tgt)
    (hb : cfg.apk = some b) (he : b.disabled = false)
    (hk : a.secrets "rsa_key" = some bytes) :
    (a.parseKey bytes = none → (assemble a cfg).1 = .error PipeErr.invalidKey) ∧
    (∀ key, a.parseKey bytes = some key → b.keyName = "" →
      (assemble a cfg).1 = .error (PipeErr.missingRequiredField "key name") ∧
      (PipeErr.missingRequiredField "key name").message = "missing key name") ∧
    (∀ key, a.parseKey bytes = some key → b.keyName ≠ "" →
      ∃ c, (assemble a cfg).1 = .ok { Apk := some c } ∧ c.RSAKey = some key ∧
        c.KeyName = b.keyName) := by
  refine ⟨?_, ?_, ?_⟩
  · intro hp
    simp [assemble, hs, ht, hb, he, decodeApk, hk, hp]
  · intro key hp hn
    refine ⟨?_, by decide⟩
    simp [assemble, hs, ht, hb, he, decodeApk, hk, hp, hn]
  · intro key hp hn
    refine ⟨{ Source := src, Target := a.sub tgt (if b.folder = "" then "apk" else b.folder),
              Version := if b.version = "" then cfg.version else b.version,
              Prerelease := b.prerelease.getD cfg.prerelease, RSAKey := some key,
              KeyName := b.keyName }, ?_, ?_, ?_⟩
    · simp [assemble, hs, ht, hb, he, decodeApk, hk, hp, hn]
    · rfl
    · rfl

theorem assemble_enabled_apk_with_key_witness :
    (assemble (demoAssembler (storeWith [0, 0]))
      (demoConfig { disabled := false, folder := "", keyName := "", version := "",
                    prerelease := none })).1 = .error PipeErr.invalidKey ∧
    (assemble (demoAssembler (storeWith [1, 5]))
      (demoConfig { disabled := false, folder := "", keyName := "", version := "",
                    prerelease := none })).1 = .error (PipeErr.missingRequiredField "key name") ∧
    ∃ c, (assemble (demoAssembler (storeWith [1, 5]))
      (demoConfig { disabled := false, folder := "test", keyName := "test@example.com.rsa.pub",
                    version := "", prerelease := none })).1 = .ok { Apk := some c } ∧
      c.RSAKey = some [5] ∧ c.KeyName = "test@example.com.rsa.pub" :=
  ⟨(assemble_enabled_apk_with_key (demoAssembler (storeWith [0, 0]))
      (demoConfig { disabled := false, folder := "", keyName := "", version := "",
                    prerelease := none })
      { disabled := false, folder := "", keyName := "", version := "", prerelease := none }
      "/tmp/d" "/tmp/d" [0, 0] (by decide) (by decide) rfl rfl (by decide)).1 (by decide),
   ((assemble_enabled_apk_with_key (demoAssembler (storeWith [1, 5]))
      (demoConfig { disabled := false, folder := "", keyName := "", version := "",
                    prerelease := none })
      { disabled := false, folder := "", keyName := "", version := "", prerelease := none }
      "/tmp/d" "/tmp/d" [1, 5] (by decide) (by decide) rfl rfl (by decide)).2.1 [5]
      (by decide) (by decide)).1,
   (assemble_enabled_apk_with_key (demoAssembler (storeWith [1, 5]))
      (demoConfig { disabled := false, folder := "test", keyName := "test@example.com.rsa.pub",
                    version := "", prerelease := none })
      { disabled := false, folder := "test", keyName := "test@example.com.rsa.pub",
        version := "", prerelease := none }
      "/tmp/d" "/tmp/d" [1, 5] (by decide) (by decide) rfl rfl (by decide)).2.2 [5]
      (by decide) (by decide)⟩

/-- C9, as stated, fails: the enabled `apk` block finds bytes under `rsa_key`
and the target kind `s3` is not registered.  With bytes that do not parse
the assembly fails with the provider error, not `invalidKey`; with a parsed
key and a key name it fails with the provider error too and returns no
pipe. -/
theorem assemble_enabled_apk_unknown_target :
    ((assemble (demoAssembler (storeWith [0, 0]))
      (demoConfigWith "file" "s3" { disabled := false, folder := "", keyName := "",
                                    version := "", prerelease := none })).1
      = .error (PipeErr.providerConstruction (RegistryErr.unknownProviderKind "s3")) ∧
     ¬ (assemble (demoAssembler (storeWith [0, 0]))
      (demoConfigWith "file" "s3" { disabled := false, folder := "", keyName := "",
                                    version := "", prerelease := none })).1
      = .error PipeErr.invalidKey) ∧
    (assemble (demoAssembler (storeWith [1, 5]))
      (demoConfigWith "file" "s3" { disabled := false, folder := "test",
                                    keyName := "test@example.com.rsa.pub", version := "",
                                    prerelease := none })).1
      = .error (PipeErr.providerConstruction (RegistryErr.unknownProviderKind "s3")) := by
  decide

end Kubri
